import Mathlib

/-!
Verification of the smart-fetch HTTP client core: the request dispatch /
retry state machine (`Fetcher.dispatch` in `src/index.ts`) and the response
resolution pipeline of `Fetcher.makeRequest` (content-type driven decode of
the body into text / JSON / buffer).  External collaborators (the axios
transport, the `qs` query-string library, `iconv-lite` decoding, `jschardet`
charset detection and the JSON/XML parsers) are either taken as function
parameters or modelled as pure functions, as the specification treats them.
-/

namespace SmartFetch

/-! ## String helpers

`String(error)` pattern tests in `dispatch` use `RegExp.test`, where every
pattern involved is a plain alternation of literal substrings; substring
occurrence is therefore the faithful model. -/

/-- Checks that the first list is a prefix of the second, by characters. -/
def listPrefixOf : List Char → List Char → Bool
  | [], _ => true
  | _ :: _, [] => false
  | a :: as, b :: bs => a == b && listPrefixOf as bs

/-- Checks that `pat` occurs as a contiguous substring of `s`. -/
def subOccurs (pat : List Char) : List Char → Bool
  | [] => listPrefixOf pat []
  | c :: rest => listPrefixOf pat (c :: rest) || subOccurs pat rest

/-- Substring test on strings: does `pat` occur inside `s`. -/
def containsStr (s pat : String) : Bool := subOccurs pat.data s.data

/-- Lower-cases every character of a string (models the `i` regexp flag). -/
def lowerStr (s : String) : String := ⟨s.data.map Char.toLower⟩

/-! ## Retry classification data (src/index.ts lines 43-49) -/

/-- RetryableStatuses from src/index.ts line 43. -/
def RetryableStatuses : List Nat := [408, 409, 425, 500, 502, 503, 504]

/-- HangUpPattern (line 44): matches when the error description contains
either alternative of the regexp. -/
def matchesHangUp (s : String) : Bool :=
  containsStr s "net::ERR_EMPTY_RESPONSE" || containsStr s "socket hang up"

/-- The literal alternatives of UnretryablePattern (lines 45-49). -/
def UnretryableParts : List String :=
  ["ERR_CONNECTION_REFUSED", "ECONNREFUSED",
   "ERR_TOO_MANY_REDIRECTS", "Max redirects",
   "ERR_INTERNET_DISCONNECTED", "ENOTFOUND"]

/-- UnretryablePattern test; the regexp carries the `i` flag, so matching is
case-insensitive. -/
def matchesUnretryable (s : String) : Bool :=
  UnretryableParts.any fun p => containsStr (lowerStr s) (lowerStr p)

/-! ## Data model (src/unnamed/part_000, `Request` / `Response`) -/

/-- Request body (`MessageType`): absent, a string, or a structured object
modelled as key/value pairs. -/
inductive ReqData where
  | nullR
  | strR (s : String)
  | objR (pairs : List (String × String))
deriving DecidableEq

/-- The fields of `Request` the dispatch and decode pipeline consult. -/
structure Request where
  url : String
  method : String
  data : ReqData
  timeout : Nat
  retries : Nat
  responseType : Option String
  responseCharset : Option String
deriving DecidableEq

/-- Decoded response payload: the runtime shape of `Response.data`. Parsed
JSON/XML values are opaque to this development and carried as a tag string
produced by the (external) parser. -/
inductive RData where
  | nullD
  | textD (s : String)
  | jsonD (v : String)
  | bufD (b : List Nat)
  | streamD (tag : Nat)
deriving DecidableEq

/-- The `Response` structure handed around by `dispatch` and built by
`makeRequest` (src/index.ts lines 363-372). -/
structure Resp where
  ok : Bool
  url : String
  status : Nat
  statusText : String
  rtype : String
  rdata : RData
deriving DecidableEq

/-- A thrown transport error as `dispatch` observes it: `desc` is what
`String(error)` yields, the booleans record which axios-internal fields are
present on the object. -/
structure TransErr where
  desc : String
  message : String
  isAxiosError : Bool
  hasCode : Bool
  hasConfig : Bool
  hasToJSON : Bool
deriving DecidableEq

/-- Outcome of one `handle(request)` call inside `doRequest`: either a
response was returned or an error was thrown. -/
inductive Outcome where
  | success (r : Resp)
  | failure (e : TransErr)
deriving DecidableEq

/-- The error value `dispatch` rejects with after terminal failure
(src/index.ts lines 181-198): possibly-stripped fields, possibly-rewritten
message, plus the attached `request` and `response` properties. -/
structure FinalErr where
  message : String
  hasCode : Bool
  hasConfig : Bool
  hasIsAxiosError : Bool
  hasToJSON : Bool
  request : Request
  response : Option Resp
deriving DecidableEq

/-- Terminal error construction of `dispatch` (lines 181-198): axios errors
have `code`/`config`/`isAxiosError`/`toJSON` deleted and, when the one-shot
hang-up rule ended the dispatch (`isGone`), the message replaced by the
canonical empty-response message; then `request` and `response` are attached
to the error unconditionally. -/
def finalizeError (isGone : Bool) (e : TransErr) (req : Request)
    (resp : Option Resp) : FinalErr :=
  if e.isAxiosError then
    { message := if isGone then "net::ERR_EMPTY_RESPONSE at " ++ req.url
                 else e.message,
      hasCode := false, hasConfig := false,
      hasIsAxiosError := false, hasToJSON := false,
      request := req, response := resp }
  else
    { message := e.message,
      hasCode := e.hasCode, hasConfig := e.hasConfig,
      hasIsAxiosError := e.isAxiosError, hasToJSON := e.hasToJSON,
      request := req, response := resp }

/-- The retry decision of one attempt (src/index.ts lines 158-174), returning
`(shouldRetry, isGone)`. `n` is the attempt counter (`retries` local): 0 on
the first attempt. -/
def shouldRetryOf (req : Request) (out : Outcome) (n : Nat) : Bool × Bool :=
  match out with
  | .success r =>
    (!r.ok && decide (n < req.retries) && RetryableStatuses.contains r.status,
     false)
  | .failure e =>
    if matchesHangUp e.desc then (decide (n < 1), true)
    else (decide (n < req.retries) && !matchesUnretryable e.desc, false)

/-- Result of one attempt of the `doRequest` loop. -/
inductive AttemptResult where
  | retry
  | resolve (r : Resp)
  | reject (e : FinalErr)
deriving DecidableEq

/-- One attempt of `doRequest` (lines 134-203), minus the backoff timing:
on a non-retry outcome it either resolves `fixResponse(response, request)`
(the `fixResponse` helper of `utils` is a collaborator passed as `fixR`) or
rejects the finalized error.  When an error was thrown, no response exists in
that attempt's scope, so `response || null` is `none`. -/
def evalAttempt (fixR : Resp → Request → Resp) (req : Request)
    (out : Outcome) (n : Nat) : AttemptResult :=
  let sr := shouldRetryOf req out n
  if sr.1 then .retry
  else
    match out with
    | .failure e => .reject (finalizeError sr.2 e req none)
    | .success r => .resolve (fixR r req)

/-- Terminal result of a whole dispatch. -/
inductive DispatchResult where
  | resolved (r : Resp)
  | rejected (e : FinalErr)
  | outOfFuel
deriving DecidableEq

/-- Runs the `doRequest` loop from attempt `n`, with `out k` the outcome the
transport produces on attempt `k`; returns the terminal result and the number
of transport calls performed.  `fuel` bounds the recursion; `dispatchRun`
supplies enough fuel for the loop to always terminate on its own. -/
def runFrom (fixR : Resp → Request → Resp) (req : Request)
    (out : Nat → Outcome) : Nat → Nat → DispatchResult × Nat
  | _, 0 => (.outOfFuel, 0)
  | n, fuel + 1 =>
    match evalAttempt fixR req (out n) n with
    | .retry =>
      let rc := runFrom fixR req out (n + 1) fuel
      (rc.1, rc.2 + 1)
    | .resolve r => (.resolved r, 1)
    | .reject e => (.rejected e, 1)

/-- A whole dispatch: the loop starting at attempt 0. A retry is only ever
scheduled while `n < max retries 1`, so `retries + 2` fuel always suffices. -/
def dispatchRun (fixR : Resp → Request → Resp) (req : Request)
    (out : Nat → Outcome) : DispatchResult × Nat :=
  runFrom fixR req out 0 (req.retries + 2)

/-! ## Response resolution pipeline (`Fetcher.makeRequest`, lines 338-479)

`resolveContentType` lives in the repository's `utils` module (not under
`src/`); its result is taken as an input structure.  The external pure
collaborators are parameters: `det` is the charset the statistical detector
returns on the body, `dB` is `iconv.decode` (`none` = throw), `jP` is
`JSON.parse` (`none` = throw) and `xP` is `parseXML` (`none` = throw). -/

/-- Content resolution result of `resolveContentType` as `makeRequest`
consumes it: the structural `type`, the `charset` and the MIME `prefix`,
each possibly undetermined. -/
structure ResInfo where
  rtype : Option String
  charset : Option String
  mprefix : Option String
deriving DecidableEq

/-- The `ok` computation of `makeRequest` (line 364):
`res.status >= 200 && res.status <= 299`. -/
def responseOk (status : Nat) : Bool :=
  decide (200 ≤ status) && decide (status ≤ 299)

/-- Raw transport result of the axios call as `makeRequest` observes it after
URL sanitization: status line, the sanitized final url, body bytes, and a tag
for the raw stream object when streaming. -/
structure AxiosRes where
  status : Nat
  statusText : String
  url : String
  bytes : List Nat
  streamTag : Nat
deriving DecidableEq

/-- The response skeleton built at lines 363-372, before `type`/`data` are
filled in (`type: void 0, data: null`). -/
def baseResponse (ax : AxiosRes) : Resp :=
  { ok := responseOk ax.status, url := ax.url, status := ax.status,
    statusText := ax.statusText, rtype := "", rdata := .nullD }

/-- The effective charset (line 385): `request.responseCharset ||
resInfo.charset || detect(resData).encoding`. -/
def charsetOf (req : Request) (ri : ResInfo) (det : Option String) :
    Option String :=
  req.responseCharset <|> ri.charset <|> det

/-- The truncated preview used in the JSON parse error message (lines
435-438): the full text when at most 32 characters long, else its first 29
characters followed by an ellipsis. -/
def preview (t : String) : String :=
  if t.length > 32 then String.mk (t.data.take 29) ++ "..." else t

/-- Forced decode of the body to text (lines 402-423): a zero-length body is
the empty string; otherwise a resolvable charset is required and
`iconv.decode` applied; the surrounding catch turns every failure into a
`TypeError` whose message depends on whether `responseCharset` was given. -/
def forcedDecode (rt : String) (rc : Option String) (cs : Option String)
    (dB : List Nat → String → Option String) (bytes : List Nat) :
    Except String String :=
  let fail := match rc with
    | some c => "Cannot decode the data by charset " ++ c
    | none => "Cannot decode the data as " ++ rt
  if bytes = [] then .ok ""
  else
    match cs with
    | some c =>
      match dB bytes c with
      | some s => .ok s
      | none => .error fail
    | none => .error fail

/-- Is the MIME prefix one of `["text", "application", "*"]` (line 444). -/
def prefixIn (p : Option String) : Bool :=
  p == some "text" || p == some "application" || p == some "*"

/-- The body decode of `makeRequest` after the stream early-return (lines
383-478), producing the final `(type, data)` pair or the thrown error's
message.  Mirrors the source: the `buffer`/`octet-stream` short-circuit, the
forced `text`/`json` branch with its JSON/XML parse step, and the
never-throwing auto-detection branch. -/
def decodeStage (req : Request) (ri : ResInfo) (det : Option String)
    (dB : List Nat → String → Option String)
    (jP xP : String → Option String) (bytes : List Nat) :
    Except String (String × RData) :=
  let type0 : Option String := req.responseType <|> ri.rtype
  let cs := charsetOf req ri det
  if type0 = some "buffer" ∨
      (type0 = some "octet-stream" ∧ req.responseType = none) then
    .ok ("buffer", .bufD bytes)
  else
    match req.responseType with
    | some rt =>
      match forcedDecode rt req.responseCharset cs dB bytes with
      | .error m => .error m
      | .ok s =>
        if rt = "json" then
          match (if ri.rtype = some "xml" then xP s else jP s) with
          | some v => .ok ("json", .jsonD v)
          | none =>
            .error ("Cannot decode the data '" ++ preview s ++ "' as JSON")
        else .ok ("text", .textD s)
    | none =>
      if prefixIn ri.mprefix then
        if bytes = [] then .ok ("text", .textD "")
        else
          match cs with
          | none => .ok ("buffer", .bufD bytes)
          | some c =>
            match dB bytes c with
            | none => .ok ("buffer", .bufD bytes)
            | some s =>
              if type0 = some "json" then
                match jP s with
                | some v => .ok ("json", .jsonD v)
                | none => .ok ("buffer", .bufD bytes)
              else if type0 = some "xml" then
                match xP s with
                | some v => .ok ("json", .jsonD v)
                | none => .ok ("buffer", .bufD bytes)
              else .ok ("text", .textD s)
      else .ok ("buffer", .bufD bytes)

/-- The whole post-transport part of `makeRequest`: the stream early-return
(lines 374-381) or the decode pipeline filling `type`/`data`. -/
def makeRequestModel (req : Request) (ax : AxiosRes) (ri : ResInfo)
    (det : Option String) (dB : List Nat → String → Option String)
    (jP xP : String → Option String) : Except String Resp :=
  if req.responseType = some "stream" then
    .ok ({ baseResponse ax with
             rtype := "stream", rdata := .streamD ax.streamTag })
  else
    match decodeStage req ri det dB jP xP ax.bytes with
    | .ok td => .ok ({ baseResponse ax with rtype := td.1, rdata := td.2 })
    | .error m => .error m

/-! ## Query-string serialization and body normalization
(`Fetcher.dispatch`, lines 97-129)

The `qs` library is an external collaborator.  `qsStringify` / `qsParse`
below model it for flat string-valued objects: pairs are joined with `&`,
key and value joined with `=`, and the URL-reserved characters
percent-escaped; parsing splits and percent-decodes. -/

/-- Percent-escaping of one character: the URL-reserved characters are
escaped to their `%HH` form, everything else is kept literal. -/
def encChar (c : Char) : List Char :=
  if c = '%' then ['%', '2', '5']
  else if c = '&' then ['%', '2', '6']
  else if c = '=' then ['%', '3', 'D']
  else if c = '?' then ['%', '3', 'F']
  else if c = '#' then ['%', '2', '3']
  else if c = '+' then ['%', '2', 'B']
  else if c = ' ' then ['%', '2', '0']
  else [c]

/-- Percent-escaping of a character list. -/
def encStr : List Char → List Char
  | [] => []
  | c :: rest => encChar c ++ encStr rest

/-- Decoding table for the escapes `encChar` produces. -/
def decTable (a b : Char) : Option Char :=
  if a = '2' && b = '5' then some '%'
  else if a = '2' && b = '6' then some '&'
  else if a = '3' && b = 'D' then some '='
  else if a = '3' && b = 'F' then some '?'
  else if a = '2' && b = '3' then some '#'
  else if a = '2' && b = 'B' then some '+'
  else if a = '2' && b = '0' then some ' '
  else none

/-- Percent-decoding: a `%` followed by a recognized escape becomes the
escaped character, everything else is kept literal. -/
def decStr : List Char → List Char
  | [] => []
  | c :: a :: b :: rest2 =>
    if c = '%' then
      match decTable a b with
      | some x => x :: decStr rest2
      | none => c :: decStr (a :: b :: rest2)
    else c :: decStr (a :: b :: rest2)
  | c :: rest => c :: decStr rest

/-- Joins query-string parts with `&`. -/
def joinAmp : List (List Char) → List Char
  | [] => []
  | [p] => p
  | p :: q :: t => p ++ '&' :: joinAmp (q :: t)

/-- Splits a query string on `&`. -/
def splitAmp : List Char → List (List Char)
  | [] => [[]]
  | c :: rest =>
    if c = '&' then [] :: splitAmp rest
    else
      match splitAmp rest with
      | [] => [[c]]
      | h :: t => (c :: h) :: t

/-- Splits one `k=v` part at the first `=` (no `=` gives an empty value). -/
def splitEq : List Char → List Char × List Char
  | [] => ([], [])
  | c :: rest =>
    if c = '=' then ([], rest)
    else ((c :: (splitEq rest).1), (splitEq rest).2)

/-- One serialized `key=value` part. -/
def encPair (p : String × String) : List Char :=
  encStr p.1.data ++ '=' :: encStr p.2.data

/-- Model of `qs.stringify` on a flat string-valued object. -/
def qsStringify (ps : List (String × String)) : String :=
  String.mk (joinAmp (ps.map encPair))

/-- Decodes one `k=v` part back into a pair. -/
def decPart (part : List Char) : String × String :=
  (String.mk (decStr (splitEq part).1), String.mk (decStr (splitEq part).2))

/-- Model of `qs.parse`: the empty string is the empty object, otherwise the
string is split on `&`, each part split at its first `=` and decoded. -/
def qsParse (s : String) : List (String × String) :=
  match s.data with
  | [] => []
  | c :: rest => (splitAmp (c :: rest)).map decPart

/-- Model of `qs.stringify` with `encodeValuesOnly: true` (line 119-121):
keys are left unescaped, values are escaped. -/
def qsStringifyVO (ps : List (String × String)) : String :=
  String.mk (joinAmp (ps.map fun p => p.1.data ++ '=' :: encStr p.2.data))

/-- The `patchQueryString` closure (lines 98-106): append the query to the
URL, joined with `&` when the URL already contains `?`, with `?` otherwise
(the body is cleared by the caller below). -/
def patchQueryString (url query : String) : String :=
  if url.data.contains '?' then url ++ "&" ++ query
  else url ++ "?" ++ query

/-- JS `["GET", "HEAD", "get", "head"].includes(method)` (lines 109, 125). -/
def isGetOrHead (m : String) : Bool :=
  (["GET", "HEAD", "get", "head"] : List String).contains m

/-- Lodash `trimStart(s, "?&")`: drop leading `?`/`&` characters. -/
def trimStartQA (s : String) : String :=
  ⟨s.data.dropWhile fun c => c = '?' || c = '&'⟩

/-- The body-handling part of `dispatch` normalization (lines 97-129) on an
already-defaulted request.  `xtype` stands for the `type` field that the
`utils` collaborator `extractContentType` extracts from the request's
content-type header (that module is not under `src/`).  A GET/HEAD object
body becomes a query string appended to the URL with the body cleared; a
GET/HEAD non-empty string body is appended after trimming leading `?`/`&`;
a non-GET/HEAD object body is form-encoded only for
`x-www-form-urlencoded`; everything else passes through. -/
def normalizeBody (xtype : Option String) (req : Request) : Request :=
  match req.data with
  | .nullR => req
  | .objR pairs =>
    if isGetOrHead req.method then
      { req with url := patchQueryString req.url (qsStringify pairs),
                 data := .nullR }
    else if xtype = some "x-www-form-urlencoded" then
      { req with data := .strR (qsStringifyVO pairs) }
    else req
  | .strR s =>
    if s ≠ "" ∧ isGetOrHead req.method then
      { req with url := patchQueryString req.url (trimStartQA s),
                 data := .nullR }
    else req

/-! ## Theorems -/

/-- C1: the code computes `ok := status >= 200 && status <= 299`
(src/index.ts line 364), so a 304 response carries `ok = false`, although the
repository's own `Response` documentation (`src/unnamed/part_000` lines
63-67) states that a request is OK when the status code is 200-299 **or
304**.  Evaluating the response construction at status 304 exhibits the
divergence. -/
theorem c1_ok_at_304 :
    (baseResponse { status := 304, statusText := "Not Modified",
                    url := "http://example.com/", bytes := [],
                    streamTag := 0 }).ok = false ∧
    responseOk 304 = false := by
  decide

/-- Reduction of one attempt when the transport returned a response. -/
lemma evalAttempt_success_eq (fixR : Resp → Request → Resp) (req : Request)
    (r : Resp) (n : Nat) :
    evalAttempt fixR req (.success r) n =
      if (!r.ok && decide (n < req.retries) &&
          RetryableStatuses.contains r.status) then .retry
      else .resolve (fixR r req) := rfl

/-- C3: on an attempt in which the transport returned a response, the
dispatcher retries exactly when the response is not ok, the attempt counter
is below the configured retries, and the status is in the fixed retryable
set; and a response-bearing attempt that is not retried always resolves the
(fixed-up) response to the caller, never rejecting. -/
theorem c3_response_retry_iff (fixR : Resp → Request → Resp) (req : Request)
    (r : Resp) (n : Nat) :
    (evalAttempt fixR req (.success r) n = .retry ↔
      (r.ok = false ∧ n < req.retries ∧ r.status ∈ RetryableStatuses)) ∧
    (evalAttempt fixR req (.success r) n = .retry ∨
      evalAttempt fixR req (.success r) n = .resolve (fixR r req)) := by
  rw [evalAttempt_success_eq]
  by_cases hb : (!r.ok && decide (n < req.retries) &&
      RetryableStatuses.contains r.status) = true
  · have hb' : r.ok = false ∧ n < req.retries ∧
        r.status ∈ RetryableStatuses := by
      simpa [and_assoc] using hb
    simp only [if_pos hb]
    exact ⟨iff_of_true trivial hb', Or.inl trivial⟩
  · have hb' : ¬(r.ok = false ∧ n < req.retries ∧
        r.status ∈ RetryableStatuses) := by
      intro hc
      exact hb (by simp [and_assoc, hc.1, hc.2.1, hc.2.2])
    have hbf : (!r.ok && decide (n < req.retries) &&
        RetryableStatuses.contains r.status) = false := by
      simpa using hb
    simp only [hbf, Bool.false_eq_true, if_false]
    exact ⟨iff_of_false (by simp) hb', Or.inr trivial⟩

/-- Reduction of one attempt on a hang-up-matching thrown error: retried on
the very first attempt only, afterwards terminal with `isGone` set. -/
lemma evalAttempt_hangup_eq (fixR : Resp → Request → Resp) (req : Request)
    (e : TransErr) (n : Nat) (h : matchesHangUp e.desc = true) :
    evalAttempt fixR req (.failure e) n =
      if n = 0 then .retry else .reject (finalizeError true e req none) := by
  unfold evalAttempt shouldRetryOf
  cases n with
  | zero => simp [h]
  | succ m => simp [h]

/-- Concrete transport error matching the hang-up pattern. -/
def hangErr : TransErr :=
  { desc := "Error: socket hang up", message := "socket hang up",
    isAxiosError := true, hasCode := true, hasConfig := true,
    hasToJSON := true }

/-- A request with a generous retry budget. -/
def reqRetry5 : Request :=
  { url := "http://localhost:3000/a", method := "GET", data := .nullR,
    timeout := 30000, retries := 5, responseType := none,
    responseCharset := none }

/-- C4: when every transport attempt throws an error whose description
matches the hang-up patterns, the dispatch performs exactly two transport
calls — the initial attempt plus a single retry — for every configured
`retries` value (the bound `req.retries` is universally quantified, covering
`retries = 0` and `retries ≥ 2` alike), and terminates by rejecting. -/
theorem c4_hangup_single_retry (fixR : Resp → Request → Resp) (req : Request)
    (out : Nat → Outcome)
    (h : ∀ n, ∃ e, out n = .failure e ∧ matchesHangUp e.desc = true) :
    (dispatchRun fixR req out).2 = 2 ∧
    ∃ fe, (dispatchRun fixR req out).1 = .rejected fe := by
  obtain ⟨e0, h0, hm0⟩ := h 0
  obtain ⟨e1, h1, hm1⟩ := h 1
  have e0eq : evalAttempt fixR req (out 0) 0 = .retry := by
    rw [h0, evalAttempt_hangup_eq fixR req e0 0 hm0]
    simp
  have e1eq : evalAttempt fixR req (out 1) 1 =
      .reject (finalizeError true e1 req none) := by
    rw [h1, evalAttempt_hangup_eq fixR req e1 1 hm1]
    simp
  unfold dispatchRun
  rw [show req.retries + 2 = req.retries + 1 + 1 from rfl]
  rw [runFrom, e0eq]
  rw [show req.retries + 1 = req.retries + 1 from rfl, runFrom, e1eq]
  exact ⟨rfl, finalizeError true e1 req none, rfl⟩

/-- Witness for C4 at a concrete hang-up error and `retries = 5`. -/
theorem c4_hangup_single_retry_witness :
    (dispatchRun (fun r _ => r) reqRetry5 (fun _ => .failure hangErr)).2 = 2 ∧
    ∃ fe, (dispatchRun (fun r _ => r) reqRetry5
      (fun _ => .failure hangErr)).1 = .rejected fe :=
  c4_hangup_single_retry (fun r _ => r) reqRetry5 (fun _ => .failure hangErr)
    (fun _ => ⟨hangErr, rfl, by decide⟩)

/-- A transport error whose description matches both the hang-up pattern
and the unretryable pattern at once. -/
def bothErr : TransErr :=
  { desc := "Error: socket hang up after ECONNREFUSED",
    message := "socket hang up after ECONNREFUSED",
    isAxiosError := true, hasCode := false, hasConfig := false,
    hasToJSON := false }

/-- C5 counterexample: the code tests the hang-up pattern before the
unretryable pattern (src/index.ts lines 162-174), so an error whose
description matches the unretryable patterns but also contains a hang-up
phrase IS retried once: the dispatch below performs two transport calls,
refuting the claim that a dispatch whose thrown errors match the unretryable
patterns never retries. -/
theorem c5_counterexample :
    matchesUnretryable bothErr.desc = true ∧
    (dispatchRun (fun r _ => r) reqRetry5 (fun _ => .failure bothErr)).2
      = 2 := by
  decide

/-- C5 (amended): a thrown transport error whose description matches the
unretryable patterns and does NOT match the hang-up patterns is never
retried: the attempt is terminal and rejects, for every attempt counter and
every configured `retries` value; consequently a dispatch whose first
transport call throws such an error rejects after exactly one transport
call. -/
theorem c5_unretryable_never_retries (fixR : Resp → Request → Resp)
    (req : Request) (e : TransErr) (n : Nat)
    (hu : matchesUnretryable e.desc = true)
    (hh : matchesHangUp e.desc = false) :
    evalAttempt fixR req (.failure e) n =
      .reject (finalizeError false e req none) ∧
    ∀ out : Nat → Outcome, out 0 = .failure e →
      dispatchRun fixR req out =
        (.rejected (finalizeError false e req none), 1) := by
  have h1 : evalAttempt fixR req (.failure e) n =
      .reject (finalizeError false e req none) := by
    unfold evalAttempt shouldRetryOf
    simp [hh, hu]
  refine ⟨h1, ?_⟩
  intro out h0
  have h2 : evalAttempt fixR req (out 0) 0 =
      .reject (finalizeError false e req none) := by
    rw [h0]
    unfold evalAttempt shouldRetryOf
    simp [hh, hu]
  unfold dispatchRun
  rw [show req.retries + 2 = req.retries + 1 + 1 from rfl]
  rw [runFrom, h2]

/-- A concrete connection-refused transport error (the shape the test suite
observes for a dead proxy: `Error: connect ECONNREFUSED 127.0.0.1:3228`). -/
def refusedErr : TransErr :=
  { desc := "Error: connect ECONNREFUSED 127.0.0.1:3228",
    message := "connect ECONNREFUSED 127.0.0.1:3228",
    isAxiosError := true, hasCode := true, hasConfig := true,
    hasToJSON := true }

/-- Witness for the amended C5 at a concrete connection-refused error and
`retries = 5`. -/
theorem c5_unretryable_never_retries_witness :
    evalAttempt (fun r _ => r) reqRetry5 (.failure refusedErr) 0 =
      .reject (finalizeError false refusedErr reqRetry5 none) ∧
    dispatchRun (fun r _ => r) reqRetry5 (fun _ => .failure refusedErr) =
      (.rejected (finalizeError false refusedErr reqRetry5 none), 1) := by
  have h := c5_unretryable_never_retries (fun r _ => r) reqRetry5 refusedErr 0
    (by decide) (by decide)
  exact ⟨h.1, h.2 (fun _ => .failure refusedErr) rfl⟩

/-- A hang-up error that is not an axios error (e.g. raised by an alternate
transport adapter honouring the open `handle` interface), carrying a `code`
field. -/
def plainHangErr : TransErr :=
  { desc := "Error: socket hang up", message := "socket hang up",
    isAxiosError := false, hasCode := true, hasConfig := false,
    hasToJSON := false }

/-- Request with no retry budget used by the C7 counterexample. -/
def reqPlain : Request :=
  { url := "http://example.com/", method := "GET", data := .nullR,
    timeout := 30000, retries := 0, responseType := none,
    responseCharset := none }

/-- C7 counterexample: field stripping and the hang-up message rewrite are
guarded by `error["isAxiosError"]` (src/index.ts lines 182-193).  A
non-axios error that terminates via the one-shot hang-up rule is propagated
with its `code` field intact and its message NOT rewritten to the canonical
empty-response message, refuting the claim that stripping and the rewrite
happen for every terminal thrown error. -/
theorem c7_counterexample :
    (dispatchRun (fun r _ => r) reqPlain (fun _ => .failure plainHangErr)).1
      = .rejected (finalizeError true plainHangErr reqPlain none) ∧
    (finalizeError true plainHangErr reqPlain none).hasCode = true ∧
    (finalizeError true plainHangErr reqPlain none).message
      = "socket hang up" ∧
    ¬((finalizeError true plainHangErr reqPlain none).message
      = "net::ERR_EMPTY_RESPONSE at " ++ reqPlain.url) := by
  decide

/-- C7 (amended): every terminal thrown error is propagated carrying
`request` (the final normalized request) and `response` (the last received
response, or null); when the error is an axios transport error, the
axios-internal fields `code`, `config`, `isAxiosError` and `toJSON` are
stripped, and if the termination was due to the one-shot hang-up rule the
message is rewritten to the canonical empty-response message carrying the
request URL (otherwise the message is kept); a non-axios error keeps its
fields and message. -/
theorem c7_error_annotation (isGone : Bool) (e : TransErr) (req : Request)
    (resp : Option Resp) :
    (finalizeError isGone e req resp).request = req ∧
    (finalizeError isGone e req resp).response = resp ∧
    (e.isAxiosError = true →
      (finalizeError isGone e req resp).hasCode = false ∧
      (finalizeError isGone e req resp).hasConfig = false ∧
      (finalizeError isGone e req resp).hasIsAxiosError = false ∧
      (finalizeError isGone e req resp).hasToJSON = false ∧
      (isGone = true → (finalizeError isGone e req resp).message
        = "net::ERR_EMPTY_RESPONSE at " ++ req.url) ∧
      (isGone = false → (finalizeError isGone e req resp).message
        = e.message)) ∧
    (e.isAxiosError = false →
      (finalizeError isGone e req resp).message = e.message ∧
      (finalizeError isGone e req resp).hasCode = e.hasCode ∧
      (finalizeError isGone e req resp).hasConfig = e.hasConfig ∧
      (finalizeError isGone e req resp).hasToJSON = e.hasToJSON) := by
  unfold finalizeError
  cases hax : e.isAxiosError <;> cases isGone <;> simp [hax]

/-- Witness for the amended C7 at a concrete axios hang-up error. -/
theorem c7_error_annotation_witness :
    (finalizeError true hangErr reqPlain none).request = reqPlain ∧
    (finalizeError true hangErr reqPlain none).response = none ∧
    (finalizeError true hangErr reqPlain none).hasCode = false ∧
    (finalizeError true hangErr reqPlain none).message
      = "net::ERR_EMPTY_RESPONSE at " ++ reqPlain.url := by
  have h := c7_error_annotation true hangErr reqPlain none
  have hax := h.2.2.1 rfl
  exact ⟨h.1, h.2.1, hax.1, hax.2.2.2.2.1 rfl⟩

/-- C10: with `responseType = "stream"` the response is returned immediately
with `type = "stream"` and the raw transport stream as `data`; the result
does not depend on the content-type resolution, the charset detector, the
byte decoder or the JSON/XML parsers, since none of them is consulted. -/
theorem c10_stream_immediate (req : Request) (ax : AxiosRes)
    (ri ri' : ResInfo) (det det' : Option String)
    (dB dB' : List Nat → String → Option String)
    (jP xP jP' xP' : String → Option String)
    (h : req.responseType = some "stream") :
    makeRequestModel req ax ri det dB jP xP =
      .ok ({ baseResponse ax with
               rtype := "stream", rdata := .streamD ax.streamTag }) ∧
    makeRequestModel req ax ri det dB jP xP =
      makeRequestModel req ax ri' det' dB' jP' xP' := by
  unfold makeRequestModel
  rw [if_pos h, if_pos h]
  exact ⟨rfl, rfl⟩

/-- A request forcing `responseType = "stream"`. -/
def reqStream : Request :=
  { url := "http://example.com/f", method := "GET", data := .nullR,
    timeout := 30000, retries := 0, responseType := some "stream",
    responseCharset := none }

/-- A concrete transport result with a non-empty body. -/
def axSample : AxiosRes :=
  { status := 200, statusText := "OK", url := "http://example.com/f",
    bytes := [104, 105], streamTag := 7 }

/-- A content resolution result with text MIME prefix and no charset. -/
def riText : ResInfo :=
  { rtype := some "text", charset := none, mprefix := some "text" }

/-- Witness for C10 at a concrete streaming request. -/
theorem c10_stream_immediate_witness :
    makeRequestModel reqStream axSample riText none (fun _ _ => none)
        (fun _ => none) (fun _ => none) =
      .ok ({ baseResponse axSample with
               rtype := "stream", rdata := .streamD axSample.streamTag }) ∧
    makeRequestModel reqStream axSample riText none (fun _ _ => none)
        (fun _ => none) (fun _ => none) =
      makeRequestModel reqStream axSample
        { rtype := none, charset := some "utf-8", mprefix := some "image" }
        (some "utf-8") (fun _ _ => some "hi") (fun s => some s)
        (fun s => some s) :=
  c10_stream_immediate reqStream axSample riText _ none _ _ _ _ _ _ _ rfl

/-- Models the strictness of `JSON.parse` on the empty input: ECMA-404
admits no JSON value in the empty string, so `JSON.parse("")` throws. -/
def jsonParse0 : String → Option String :=
  fun s => if s = "" then none else some s

/-- A forced-JSON request. -/
def reqJson : Request :=
  { url := "http://example.com/j", method := "GET", data := .nullR,
    timeout := 30000, retries := 0, responseType := some "json",
    responseCharset := none }

/-- An auto-mode request. -/
def reqAuto : Request :=
  { url := "http://example.com/j", method := "GET", data := .nullR,
    timeout := 30000, retries := 0, responseType := none,
    responseCharset := none }

/-- A content resolution result with `application` prefix and nothing else
determined. -/
def riApp : ResInfo :=
  { rtype := none, charset := none, mprefix := some "application" }

/-- A content resolution result with an `image` MIME prefix. -/
def riImage : ResInfo :=
  { rtype := none, charset := none, mprefix := some "image" }

/-- C2 counterexample: a zero-length body is NOT universally treated as
empty text.  First, with forced `responseType = "json"` the empty decoded
string is still handed to `JSON.parse` (src/index.ts lines 425-441), which
rejects it, so a parse error IS raised for a zero-length body.  Second, in
auto mode with a MIME prefix outside {text, application, *} (here `image`)
the empty body is returned as a buffer, not as empty text. -/
theorem c2_counterexample :
    decodeStage reqJson riApp none (fun _ _ => none) jsonParse0
        (fun _ => none) [] =
      .error "Cannot decode the data '' as JSON" ∧
    decodeStage reqAuto riImage none (fun _ _ => some "x") (fun s => some s)
        (fun s => some s) [] =
      .ok ("buffer", .bufD []) := by
  exact ⟨rfl, rfl⟩

/-- C2 (amended): a zero-length body decodes to the empty text string with
no error when `responseType = "text"`, and in auto mode when the MIME prefix
is text/application/wildcard (and the classifier did not force a
buffer/octet-stream structural type); but with forced `responseType =
"json"` the empty string is still passed to the JSON parser (to the XML
parser when the content type was xml) and a parse error naming the empty
preview is raised exactly when that parser rejects it; in auto mode with any
other MIME prefix the zero-length body yields a buffer. -/
theorem c2_empty_body (req : Request) (ri : ResInfo) (det : Option String)
    (dB : List Nat → String → Option String)
    (jP xP : String → Option String) :
    (req.responseType = some "text" →
      decodeStage req ri det dB jP xP [] = .ok ("text", .textD "")) ∧
    (req.responseType = none → prefixIn ri.mprefix = true →
      ri.rtype ≠ some "buffer" → ri.rtype ≠ some "octet-stream" →
      decodeStage req ri det dB jP xP [] = .ok ("text", .textD "")) ∧
    (req.responseType = none → prefixIn ri.mprefix = false →
      ri.rtype ≠ some "buffer" → ri.rtype ≠ some "octet-stream" →
      decodeStage req ri det dB jP xP [] = .ok ("buffer", .bufD [])) ∧
    (req.responseType = some "json" →
      decodeStage req ri det dB jP xP [] =
        match (if ri.rtype = some "xml" then xP "" else jP "") with
        | none => .error "Cannot decode the data '' as JSON"
        | some v => .ok ("json", .jsonD v)) := by
  refine ⟨?_, ?_, ?_, ?_⟩
  · intro h
    unfold decodeStage forcedDecode
    simp [h]
  · intro h hpre hb ho
    unfold decodeStage
    simp [h, hpre, hb, ho]
  · intro h hpre hb ho
    unfold decodeStage
    simp [h, hpre, hb, ho]
  · intro h
    unfold decodeStage forcedDecode
    simp only [h]
    by_cases hx : ri.rtype = some "xml"
    · simp [hx, preview]
      cases xP "" <;> simp [preview]
    · simp [hx, preview]
      cases jP "" <;> simp [preview]

/-- In auto mode the decode pipeline is total: it never propagates an
error, whatever the classifier, detector, decoder and parsers do. -/
lemma decodeStage_auto_isOk (req : Request) (ri : ResInfo)
    (det : Option String) (dB : List Nat → String → Option String)
    (jP xP : String → Option String) (bytes : List Nat)
    (h : req.responseType = none) :
    ∃ r, decodeStage req ri det dB jP xP bytes = .ok r := by
  unfold decodeStage
  rw [h]
  dsimp only
  repeat' split
  all_goals exact ⟨_, rfl⟩

/-- C6: in auto mode (`responseType` unset), a MIME prefix outside
{text, application, *} yields a buffer with the raw bytes; for a prefix
inside that set, every decode failure (missing charset or failing byte
decode) and every JSON/XML parse failure silently downgrades the result to a
buffer with the original raw bytes; and in all cases the pipeline returns a
result rather than raising an error. -/
theorem c6_auto_silent_buffer (req : Request) (ri : ResInfo)
    (det : Option String) (dB : List Nat → String → Option String)
    (jP xP : String → Option String) (bytes : List Nat)
    (h : req.responseType = none) :
    (∃ r, decodeStage req ri det dB jP xP bytes = .ok r) ∧
    (prefixIn ri.mprefix = false →
      decodeStage req ri det dB jP xP bytes = .ok ("buffer", .bufD bytes)) ∧
    (prefixIn ri.mprefix = true → bytes ≠ [] →
      (charsetOf req ri det = none ∨
       (∃ c, charsetOf req ri det = some c ∧ dB bytes c = none) ∨
       (∃ c s, charsetOf req ri det = some c ∧ dB bytes c = some s ∧
         ri.rtype = some "json" ∧ jP s = none) ∨
       (∃ c s, charsetOf req ri det = some c ∧ dB bytes c = some s ∧
         ri.rtype = some "xml" ∧ xP s = none)) →
      decodeStage req ri det dB jP xP bytes = .ok ("buffer", .bufD bytes)) := by
  refine ⟨decodeStage_auto_isOk req ri det dB jP xP bytes h, ?_, ?_⟩
  · intro hpre
    unfold decodeStage
    rw [h]
    dsimp only
    split
    · rfl
    · simp [hpre]
  · intro hpre hb hfail
    unfold decodeStage
    rw [h]
    dsimp only
    rcases hfail with hcs | ⟨c, hc, hdb⟩ | ⟨c, s, hc, hdb, hj, hp⟩ |
      ⟨c, s, hc, hdb, hj, hp⟩
    · split
      · rfl
      · simp [hpre, hb, hcs]
    · split
      · rfl
      · simp [hpre, hb, hc, hdb]
    · split
      · rfl
      · simp [hpre, hb, hc, hdb, hj, hp]
    · split
      · rfl
      · simp [hpre, hb, hc, hdb, hj, hp]

/-- Witness for C6: auto mode, text prefix, no charset anywhere, body
non-empty — the pipeline silently yields the raw bytes as a buffer. -/
theorem c6_auto_silent_buffer_witness :
    (∃ r, decodeStage reqAuto riText none (fun _ _ => none) (fun _ => none)
      (fun _ => none) [7] = .ok r) ∧
    decodeStage reqAuto riText none (fun _ _ => none) (fun _ => none)
      (fun _ => none) [7] = .ok ("buffer", .bufD [7]) := by
  have h := c6_auto_silent_buffer reqAuto riText none (fun _ _ => none)
    (fun _ => none) (fun _ => none) [7] rfl
  exact ⟨h.1, h.2.2 rfl (by simp) (Or.inl rfl)⟩

/-- C8: a forced-JSON decode of a (non-empty) decoded text rejected by the
JSON parser (by the XML parser when the content type was xml) raises a
parse error whose message carries the truncated preview of the offending
text: the full text when it is at most 32 characters long, otherwise its
first 29 characters followed by an ellipsis; either way the preview never
exceeds 32 characters. -/
theorem c8_json_parse_error_preview (req : Request) (ri : ResInfo)
    (det : Option String) (dB : List Nat → String → Option String)
    (jP xP : String → Option String) (bytes : List Nat) (cs : String)
    (t : String)
    (hjson : req.responseType = some "json")
    (hb : bytes ≠ [])
    (hcs : charsetOf req ri det = some cs)
    (hdec : dB bytes cs = some t)
    (hparse : (if ri.rtype = some "xml" then xP t else jP t) = none) :
    decodeStage req ri det dB jP xP bytes =
      .error ("Cannot decode the data '" ++ preview t ++ "' as JSON") ∧
    (preview t).length ≤ 32 ∧
    (t.length ≤ 32 → preview t = t) ∧
    (32 < t.length → preview t = String.mk (t.data.take 29) ++ "...") := by
  refine ⟨?_, ?_, ?_, ?_⟩
  · unfold decodeStage forcedDecode
    rw [hjson]
    simp [hb, hcs, hdec, hparse]
  · unfold preview
    by_cases hlen : t.length > 32
    · rw [if_pos hlen]
      have h1 : (String.mk (t.data.take 29) ++ "...").length =
          (t.data.take 29).length + 3 := by
        rw [String.length_append]
        rfl
      rw [h1, List.length_take]
      omega
    · rw [if_neg hlen]
      omega
  · intro hle
    unfold preview
    rw [if_neg (by omega)]
  · intro hgt
    unfold preview
    rw [if_pos (by omega)]

/-- Long malformed text used by the C8 witness: 43 characters. -/
def longBadText : String := "<!DOCTYPE html><html><body>hi</body></html>"

/-- Witness for C8 at a concrete 43-character malformed JSON text. -/
theorem c8_json_parse_error_preview_witness :
    decodeStage reqJson riApp (some "utf-8") (fun _ _ => some longBadText)
        (fun _ => none) (fun _ => none) [60] =
      .error ("Cannot decode the data '" ++ preview longBadText
        ++ "' as JSON") ∧
    (preview longBadText).length ≤ 32 ∧
    (32 < longBadText.length → preview longBadText =
      String.mk (longBadText.data.take 29) ++ "...") := by
  have h := c8_json_parse_error_preview reqJson riApp (some "utf-8")
    (fun _ _ => some longBadText) (fun _ => none) (fun _ => none) [60]
    "utf-8" longBadText rfl (by simp) rfl rfl (by simp [riApp])
  exact ⟨h.1, h.2.1, h.2.2.2⟩

/-- A request forcing `responseType = "text"`. -/
def reqText : Request :=
  { url := "http://example.com/t", method := "GET", data := .nullR,
    timeout := 30000, retries := 0, responseType := some "text",
    responseCharset := none }

/-- Witness for the amended C2: forced text on an empty body yields the
empty text string without error. -/
theorem c2_empty_body_witness :
    decodeStage reqText riApp none (fun _ _ => none) (fun _ => none)
      (fun _ => none) [] = .ok ("text", .textD "") := by
  have h := c2_empty_body reqText riApp none (fun _ _ => none)
    (fun _ => none) (fun _ => none)
  exact h.1 rfl

/-! ## Round-trip of the query-string model (C9) -/

/-- Decoding inverts the escape of a single character. -/
lemma decStr_encChar (c : Char) (rest : List Char) :
    decStr (encChar c ++ rest) = c :: decStr rest := by
  by_cases h1 : c = '%'
  · subst h1
    cases rest with
    | nil => simp [encChar, decStr, decTable]
    | cons d tl =>
      cases tl with
      | nil => simp [encChar, decStr, decTable]
      | cons d2 tl2 => simp [encChar, decStr, decTable]
  · by_cases h2 : c = '&'
    · subst h2
      cases rest with
      | nil => simp [encChar, decStr, decTable]
      | cons d tl =>
        cases tl with
        | nil => simp [encChar, decStr, decTable]
        | cons d2 tl2 => simp [encChar, decStr, decTable]
    · by_cases h3 : c = '='
      · subst h3
        cases rest with
        | nil => simp [encChar, decStr, decTable]
        | cons d tl =>
          cases tl with
          | nil => simp [encChar, decStr, decTable]
          | cons d2 tl2 => simp [encChar, decStr, decTable]
      · by_cases h4 : c = '?'
        · subst h4
          cases rest with
          | nil => simp [encChar, decStr, decTable]
          | cons d tl =>
            cases tl with
            | nil => simp [encChar, decStr, decTable]
            | cons d2 tl2 => simp [encChar, decStr, decTable]
        · by_cases h5 : c = '#'
          · subst h5
            cases rest with
            | nil => simp [encChar, decStr, decTable]
            | cons d tl =>
              cases tl with
              | nil => simp [encChar, decStr, decTable]
              | cons d2 tl2 => simp [encChar, decStr, decTable]
          · by_cases h6 : c = '+'
            · subst h6
              cases rest with
              | nil => simp [encChar, decStr, decTable]
              | cons d tl =>
                cases tl with
                | nil => simp [encChar, decStr, decTable]
                | cons d2 tl2 => simp [encChar, decStr, decTable]
            · by_cases h7 : c = ' '
              · subst h7
                cases rest with
                | nil => simp [encChar, decStr, decTable]
                | cons d tl =>
                  cases tl with
                  | nil => simp [encChar, decStr, decTable]
                  | cons d2 tl2 => simp [encChar, decStr, decTable]
              · have he : encChar c = [c] := by
                  simp [encChar, h1, h2, h3, h4, h5, h6, h7]
                rw [he]
                cases rest with
                | nil => simp [decStr, h1]
                | cons d tl =>
                  cases tl with
                  | nil => simp [decStr, h1]
                  | cons d2 tl2 => simp [decStr, h1]

/-- Decoding inverts the escape of a whole string, in any suffix context. -/
lemma decStr_encStr (l rest : List Char) :
    decStr (encStr l ++ rest) = l ++ decStr rest := by
  induction l with
  | nil => simp [encStr]
  | cons c tl ih =>
    rw [encStr, List.append_assoc, decStr_encChar, ih]
    rfl

/-- The escaped form of a character never contains an ampersand. -/
lemma amp_notin_encChar (c : Char) : '&' ∉ encChar c := by
  unfold encChar
  split_ifs with h1 h2 h3 h4 h5 h6 h7
  · decide
  · decide
  · decide
  · decide
  · decide
  · decide
  · decide
  · simp only [List.mem_singleton]
    exact fun h => h2 h.symm

/-- The escaped form of a character never contains an equals sign. -/
lemma eq_notin_encChar (c : Char) : '=' ∉ encChar c := by
  unfold encChar
  split_ifs with h1 h2 h3 h4 h5 h6 h7
  · decide
  · decide
  · decide
  · decide
  · decide
  · decide
  · decide
  · simp only [List.mem_singleton]
    exact fun h => h3 h.symm

/-- The escaped form of a string never contains an ampersand. -/
lemma amp_notin_encStr (l : List Char) : '&' ∉ encStr l := by
  induction l with
  | nil => simp [encStr]
  | cons c tl ih =>
    rw [encStr]
    intro hmem
    rcases List.mem_append.mp hmem with h | h
    · exact amp_notin_encChar c h
    · exact ih h

/-- The escaped form of a string never contains an equals sign. -/
lemma eq_notin_encStr (l : List Char) : '=' ∉ encStr l := by
  induction l with
  | nil => simp [encStr]
  | cons c tl ih =>
    rw [encStr]
    intro hmem
    rcases List.mem_append.mp hmem with h | h
    · exact eq_notin_encChar c h
    · exact ih h

/-- Splitting at the first equals sign inverts joining when the key part is
equals-free. -/
lemma splitEq_append (k v : List Char) (hk : '=' ∉ k) :
    splitEq (k ++ '=' :: v) = (k, v) := by
  induction k with
  | nil => simp [splitEq]
  | cons c tl ih =>
    have hc : c ≠ '=' := fun h => hk (h ▸ List.mem_cons_self c tl)
    have htl : '=' ∉ tl := fun h => hk (List.mem_cons_of_mem c h)
    simp [splitEq, hc, ih htl]

/-- An ampersand-free part splits to itself. -/
lemma splitAmp_noamp (p : List Char) (hp : '&' ∉ p) : splitAmp p = [p] := by
  induction p with
  | nil => rfl
  | cons c tl ih =>
    have hc : c ≠ '&' := fun h => hp (h ▸ List.mem_cons_self c tl)
    have htl : '&' ∉ tl := fun h => hp (List.mem_cons_of_mem c h)
    simp [splitAmp, hc, ih htl]

/-- Splitting on ampersand peels off an ampersand-free leading part. -/
lemma splitAmp_append (p l : List Char) (hp : '&' ∉ p) :
    splitAmp (p ++ '&' :: l) = p :: splitAmp l := by
  induction p with
  | nil => simp [splitAmp]
  | cons c tl ih =>
    have hc : c ≠ '&' := fun h => hp (h ▸ List.mem_cons_self c tl)
    have htl : '&' ∉ tl := fun h => hp (List.mem_cons_of_mem c h)
    have hgoal : splitAmp (c :: (tl ++ '&' :: l)) =
        match splitAmp (tl ++ '&' :: l) with
        | [] => [[c]]
        | h :: t => (c :: h) :: t := by
      simp [splitAmp, hc]
    rw [List.cons_append, hgoal, ih htl]

/-- Splitting on ampersand inverts joining for ampersand-free parts. -/
lemma splitAmp_joinAmp (parts : List (List Char)) (hne : parts ≠ [])
    (hp : ∀ p ∈ parts, '&' ∉ p) :
    splitAmp (joinAmp parts) = parts := by
  induction parts with
  | nil => exact absurd rfl hne
  | cons p tl ih =>
    cases tl with
    | nil =>
      rw [joinAmp]
      exact splitAmp_noamp p (hp p (List.mem_cons_self p []))
    | cons q tl2 =>
      rw [joinAmp, splitAmp_append p _ (hp p (List.mem_cons_self p _))]
      rw [ih (by simp) (fun x hx => hp x (List.mem_cons_of_mem p hx))]

/-- Decoding one part inverts the encoding of one key/value pair. -/
lemma decPart_encPair (p : String × String) : decPart (encPair p) = p := by
  unfold decPart encPair
  rw [splitEq_append _ _ (eq_notin_encStr p.1.data)]
  have hk : decStr (encStr p.1.data) = p.1.data := by
    have := decStr_encStr p.1.data []
    simpa [decStr] using this
  have hv : decStr (encStr p.2.data) = p.2.data := by
    have := decStr_encStr p.2.data []
    simpa [decStr] using this
  simp only [hk, hv]

/-- An encoded pair never contains an ampersand. -/
lemma amp_notin_encPair (p : String × String) : '&' ∉ encPair p := by
  unfold encPair
  intro hmem
  rcases List.mem_append.mp hmem with h | h
  · exact amp_notin_encStr _ h
  · rcases List.mem_cons.mp h with h | h
    · exact absurd h (by decide)
    · exact amp_notin_encStr _ h

/-- An encoded pair is never the empty list (it contains its separator). -/
lemma encPair_ne_nil (p : String × String) : encPair p ≠ [] := by
  unfold encPair
  intro h
  have : '=' ∈ encStr p.1.data ++ '=' :: encStr p.2.data := by
    exact List.mem_append.mpr (Or.inr (List.mem_cons_self _ _))
  rw [h] at this
  exact absurd this (List.not_mem_nil _)

/-- Joining a list headed by a non-empty part is non-empty. -/
lemma joinAmp_cons_ne_nil (p : List Char) (tl : List (List Char))
    (hp : p ≠ []) : joinAmp (p :: tl) ≠ [] := by
  cases tl with
  | nil => simpa [joinAmp] using hp
  | cons q tl2 =>
    rw [joinAmp]
    intro h
    rcases List.append_eq_nil.mp h with ⟨h1, _⟩
    exact hp h1

/-- Round-trip of the query-string model: parsing inverts serialization on
every flat string-valued object. -/
lemma qsParse_qsStringify (ps : List (String × String)) :
    qsParse (qsStringify ps) = ps := by
  cases hps : ps with
  | nil => rfl
  | cons p tl =>
    have hne : joinAmp ((p :: tl).map encPair) ≠ [] := by
      rw [List.map_cons]
      exact joinAmp_cons_ne_nil _ _ (encPair_ne_nil p)
    unfold qsParse qsStringify
    obtain ⟨c, rest, heq⟩ := List.exists_cons_of_ne_nil hne
    simp only [heq]
    rw [← heq]
    rw [splitAmp_joinAmp _ (by simp) ?hamp]
    case hamp =>
      intro x hx
      rw [List.mem_map] at hx
      obtain ⟨q, _, hq⟩ := hx
      rw [← hq]
      exact amp_notin_encPair q
    rw [List.map_map]
    have : (decPart ∘ encPair) = fun q : String × String => q := by
      funext q
      exact decPart_encPair q
    rw [this, List.map_id']

/-- C9: normalization of a GET/HEAD request carrying an object body
serializes the object as a query string appended to the URL — joined with
`&` when the URL already contains `?`, with `?` otherwise — clears the body
to null, and the serialization round-trips: parsing the appended query
string recovers exactly the original key/value pairs. -/
theorem c9_get_object_body_query (xtype : Option String) (req : Request)
    (ps : List (String × String))
    (hdata : req.data = .objR ps)
    (hm : isGetOrHead req.method = true) :
    (normalizeBody xtype req).data = .nullR ∧
    (normalizeBody xtype req).url =
      req.url ++ (if req.url.data.contains '?' then "&" else "?")
        ++ qsStringify ps ∧
    qsParse (qsStringify ps) = ps := by
  unfold normalizeBody
  rw [hdata]
  dsimp only
  rw [if_pos hm]
  refine ⟨rfl, ?_, qsParse_qsStringify ps⟩
  unfold patchQueryString
  by_cases hq : req.url.data.contains '?'
  · rw [if_pos hq, if_pos hq]
  · rw [if_neg hq, if_neg hq]

/-- Witness for C9 at a concrete GET request with a two-field object body
(the echo object of the repository's test suite). -/
theorem c9_get_object_body_query_witness :
    (normalizeBody none
        { url := "http://localhost:3000/test-json", method := "GET",
          data := .objR [("foo", "Hello"), ("bar", "World")],
          timeout := 30000, retries := 0, responseType := none,
          responseCharset := none }).data = .nullR ∧
    (normalizeBody none
        { url := "http://localhost:3000/test-json", method := "GET",
          data := .objR [("foo", "Hello"), ("bar", "World")],
          timeout := 30000, retries := 0, responseType := none,
          responseCharset := none }).url =
      "http://localhost:3000/test-json"
        ++ (if ("http://localhost:3000/test-json" : String).data.contains '?'
            then "&" else "?")
        ++ qsStringify [("foo", "Hello"), ("bar", "World")] ∧
    qsParse (qsStringify [("foo", "Hello"), ("bar", "World")]) =
      [("foo", "Hello"), ("bar", "World")] :=
  c9_get_object_body_query none
    { url := "http://localhost:3000/test-json", method := "GET",
      data := .objR [("foo", "Hello"), ("bar", "World")],
      timeout := 30000, retries := 0, responseType := none,
      responseCharset := none }
    [("foo", "Hello"), ("bar", "World")] rfl (by decide)

end SmartFetch
